import Mathlib

/-!
Verification of the imgbb-sdk upload client (`src/imgbb_sdk/client.py`)
against its specification.  The Python source is shallowly embedded:
pure helpers become Lean functions, the filesystem and the HTTP
transport become explicit parameters, and exceptions become an
`Except`-style error sum.
-/

namespace ImgBB

/-- Error taxonomy of the SDK (`exceptions.py`): `validation` models
`ImgBBValidationError`, `api` models `ImgBBAPIError` (message,
`status_code`, `response_text`), `timeoutErr` models `ImgBBTimeoutError`. -/
inductive SdkError where
  | validation (msg : String)
  | api (msg : String) (statusCode : Nat) (responseText : String)
  | timeoutErr (msg : String)
deriving DecidableEq, Repr

/-- Constant `UPLOAD_TIMEOUT = 30` (client.py line 23). -/
def UPLOAD_TIMEOUT : Nat := 30

/-- Constant `MAX_FILE_SIZE = 32 * 1024 * 1024` (client.py line 24). -/
def MAX_FILE_SIZE : Nat := 32 * 1024 * 1024

/-- Constant `MIN_EXPIRATION = 60` (client.py line 25). -/
def MIN_EXPIRATION : Int := 60

/-- Constant `MAX_EXPIRATION = 15552000` (client.py line 26). -/
def MAX_EXPIRATION : Int := 15552000

/-- Constant `SUPPORTED_EXTENSIONS` (client.py line 37). -/
def SUPPORTED_EXTENSIONS : List String :=
  [".jpg", ".jpeg", ".png", ".gif", ".bmp", ".webp"]

/-- Characters removed by Python `str.strip()` (ASCII whitespace). -/
def isPySpace (c : Char) : Bool :=
  c == ' ' || c == '\t' || c == '\n' || c == '\r' ||
  c == Char.ofNat 11 || c == Char.ofNat 12

/-- Python `str.strip()` on ASCII input: drop leading and trailing whitespace. -/
def pyStrip (s : String) : String :=
  String.mk (((s.data.dropWhile isPySpace).reverse.dropWhile isPySpace).reverse)

/-- Does `hay` start with `needle` (character lists)? -/
def charsStartWith : List Char → List Char → Bool
  | _, [] => true
  | [], _ :: _ => false
  | h :: t, nh :: nt => h == nh && charsStartWith t nt

/-- Does `needle` occur as a contiguous run inside `hay`?  Models the
Python substring test `needle in hay`. -/
def charsContain : List Char → List Char → Bool
  | hay, needle =>
    charsStartWith hay needle ||
      match hay with
      | [] => false
      | _ :: t => charsContain t needle

/-- Python substring membership `needle in hay` on strings. -/
def strContains (hay needle : String) : Bool :=
  charsContain hay.data needle.data

/-- Python `_validate_api_key` (client.py lines 40-45).  `none` models
passing Python `None`; the string case checks emptiness and
whitespace-only via `strip`. -/
def validate_api_key (key : Option String) : Except SdkError Unit :=
  match key with
  | none =>
    .error (.validation "ImgBB API key is required and must be a non-empty string")
  | some k =>
    if k = "" ∨ pyStrip k = "" then
      .error (.validation "ImgBB API key is required and must be a non-empty string")
    else
      .ok ()

/-- Python `_validate_expiration` (client.py lines 48-56); the
`isinstance(expiration, int)` guard is discharged by the `Int` type. -/
def validate_expiration (expiration : Int) : Except SdkError Unit :=
  if expiration < MIN_EXPIRATION ∨ expiration > MAX_EXPIRATION then
    .error (.validation "Expiration must be a number between 60 and 15552000 seconds")
  else
    .ok ()

/-- Characters accepted in a URL scheme by `urllib.parse.urlsplit`
(letters, digits, `+`, `-`, `.`). -/
def isSchemeChar (c : Char) : Bool :=
  c.isAlphanum || c == '+' || c == '-' || c == '.'

/-- Split a character list at the first colon: `some (before, after)`
when a colon occurs, `none` otherwise. -/
def splitAtColon : List Char → Option (List Char × List Char)
  | [] => none
  | c :: cs =>
    if c = ':' then some ([], cs)
    else
      match splitAtColon cs with
      | some (pre, post) => some (c :: pre, post)
      | none => none

/-- Scheme and netloc extraction of `urllib.parse.urlparse`, as used by
`_is_url`: a scheme is a non-empty run of scheme characters starting
with a letter and followed by a colon; the netloc is the run after a
leading `//` up to the first `/`, `?` or `#`. -/
def urlSchemeNetloc (s : List Char) : List Char × List Char :=
  let (scheme, rest) :=
    match splitAtColon s with
    | some (pre, post) =>
      if pre ≠ [] ∧ (pre.headD ' ').isAlpha ∧ pre.all isSchemeChar then
        (pre.map Char.toLower, post)
      else
        ([], s)
    | none => ([], s)
  let netloc :=
    if rest.take 2 = ['/', '/'] then
      (rest.drop 2).takeWhile (fun c => c ≠ '/' ∧ c ≠ '?' ∧ c ≠ '#')
    else
      []
  (scheme, netloc)

/-- Python `_is_url` (client.py lines 59-65): both the scheme and the
netloc of `urlparse(path)` must be non-empty. -/
def is_url (s : String) : Bool :=
  let (scheme, netloc) := urlSchemeNetloc s.data
  scheme ≠ [] && netloc ≠ []

/-- Split a character list on `/` separators (Python `str.split("/")`
on the characters of a path). -/
def splitOnSlash : List Char → List (List Char)
  | [] => [[]]
  | c :: rest =>
    match splitOnSlash rest with
    | [] => [[]]
    | grp :: more => if c = '/' then [] :: grp :: more else (c :: grp) :: more

/-- Final path component as computed by `pathlib.Path(...).name`: empty
and `.` components are dropped, the last remaining component (if any)
is the name. -/
def pathName (s : String) : String :=
  String.mk
    ((((splitOnSlash s.data).filter (fun c => ¬ (c = [] ∨ c = ['.']))).getLast?).getD [])

/-- Index of the last `.` in a character list, if any. -/
def lastDotIdx : List Char → Option Nat
  | [] => none
  | c :: rest =>
    match lastDotIdx rest with
    | some i => some (i + 1)
    | none => if c = '.' then some 0 else none

/-- Python `pathlib.Path(...).suffix`: the tail of the name from its
last dot, provided that dot is neither the first nor the last
character of the name. -/
def pathSuffix (s : String) : String :=
  let nm := pathName s
  match lastDotIdx nm.data with
  | some i =>
    if 0 < i ∧ i < nm.data.length - 1 then String.mk (nm.data.drop i) else ""
  | none => ""

/-- Python `str.lower()` on ASCII input (characterwise lowering). -/
def strToLower (s : String) : String :=
  String.mk (s.data.map Char.toLower)

/-- Python `_get_file_extension` (client.py lines 68-70):
`Path(filename).suffix.lower()`. -/
def get_file_extension (filename : String) : String :=
  strToLower (pathSuffix filename)

/-- Python `_validate_image_type` (client.py lines 73-81).  Only the
filename is inspected; the raw data argument is ignored by the source. -/
def validate_image_type (filename : String) : Except SdkError Unit :=
  if filename ≠ "" then
    let ext := get_file_extension filename
    if ext ≠ "" ∧ ¬ (ext ∈ SUPPORTED_EXTENSIONS) then
      .error (.validation
        ("Invalid image type. Supported formats: JPEG, PNG, GIF, BMP, WEBP. Got: " ++ ext))
    else
      .ok ()
  else
    .ok ()

/-- Base64 alphabet used by `base64.b64encode` (RFC 4648, standard). -/
def b64Alphabet : List Char :=
  "ABCDEFGHIJKLMNOPQRSTUVWXYZabcdefghijklmnopqrstuvwxyz0123456789+/".data

/-- Character for a 6-bit value. -/
def b64Char (n : Nat) : Char := b64Alphabet.getD n '?'

/-- 6-bit value of an alphabet character (64 when not in the alphabet). -/
def b64Val (c : Char) : Nat := b64Alphabet.findIdx (fun x => x == c)

/-- Python `base64.b64encode` on a byte list (bytes are `Nat < 256`),
producing the padded character stream. -/
def b64encodeBytes : List Nat → List Char
  | [] => []
  | [b0] => [b64Char (b0 / 4), b64Char (b0 % 4 * 16), '=', '=']
  | [b0, b1] =>
    [b64Char (b0 / 4), b64Char (b0 % 4 * 16 + b1 / 16), b64Char (b1 % 16 * 4), '=']
  | b0 :: b1 :: b2 :: rest =>
    b64Char (b0 / 4) :: b64Char (b0 % 4 * 16 + b1 / 16) ::
      b64Char (b1 % 16 * 4 + b2 / 64) :: b64Char (b2 % 64) :: b64encodeBytes rest

/-- Python `base64.b64decode` on well-formed padded input: groups of
four characters yield three bytes, with `=` padding closing the final
group. -/
def b64decodeChars : List Char → List Nat
  | c0 :: c1 :: c2 :: c3 :: rest =>
    let v0 := b64Val c0
    let v1 := b64Val c1
    if c2 = '=' then
      [v0 * 4 + v1 / 16]
    else if c3 = '=' then
      [v0 * 4 + v1 / 16, v1 % 16 * 16 + b64Val c2 / 4]
    else
      (v0 * 4 + v1 / 16) :: (v1 % 16 * 16 + b64Val c2 / 4) ::
        (b64Val c2 % 4 * 64 + b64Val c3) :: b64decodeChars rest
  | _ => []

/-- One filesystem entry: whether it is a regular file, the size that
`stat().st_size` reports, and the bytes that `open(...).read()` yields. -/
structure FileEntry where
  isFile : Bool
  size : Nat
  content : List Nat

/-- The filesystem the upload call runs against: `none` means the path
does not exist. -/
def FileSystem := String → Option FileEntry

/-- Python `_read_image_file` (client.py lines 84-103): existence,
regular-file and size checks, then the extension check, then the read.
The source passes `str(Path(file_path))` to the type check; the raw
path is used here, which agrees because `pathName` already drops the
empty and `.` components that `Path` normalizes away. -/
def read_image_file (fs : FileSystem) (file_path : String) :
    Except SdkError (List Nat) :=
  match fs file_path with
  | none => .error (.validation ("File not found: " ++ file_path))
  | some entry =>
    if entry.isFile = false then
      .error (.validation ("Path is not a file: " ++ file_path))
    else if entry.size > MAX_FILE_SIZE then
      .error (.validation
        ("File size (" ++ toString entry.size ++
          " bytes) exceeds maximum allowed size (" ++ toString MAX_FILE_SIZE ++ " bytes)"))
    else
      match validate_image_type file_path with
      | .error e => .error e
      | .ok _ => .ok entry.content

/-- The accepted forms of the `image` argument: file path or URL
(`str`), raw `bytes`, or a readable stream (`name` models an optional
`.name` attribute, `pos` the current read position, `seekable` whether
the object has `seek`). -/
inductive ImageInput where
  | str (s : String)
  | bytes (bs : List Nat)
  | stream (nm : Option String) (content : List Nat) (pos : Nat) (seekable : Bool)

/-- Read position of a stream input before the call (`none` for
non-stream inputs). -/
def initialStreamPos : ImageInput → Option Nat
  | .stream _ _ pos _ => some pos
  | _ => none

/-- Result of `_prepare_image_data` together with the stream position
left behind (`none` when the input was not a stream). -/
structure PrepareResult where
  result : Except SdkError String
  streamPos : Option Nat

/-- Python `_prepare_image_data` (client.py lines 106-139).  A stream is
consumed from its current position (`read()`), then reset to offset 0
when it supports `seek`; this happens before the extension check, so the
final stream position does not depend on the validation outcome. -/
def prepare_image_data (fs : FileSystem) (image : ImageInput) : PrepareResult :=
  match image with
  | .str s =>
    if is_url s then ⟨.ok s, none⟩
    else
      match read_image_file fs s with
      | .error e => ⟨.error e, none⟩
      | .ok bytes =>
        match validate_image_type s with
        | .error e => ⟨.error e, none⟩
        | .ok _ => ⟨.ok (String.mk (b64encodeBytes bytes)), none⟩
  | .bytes bs =>
    match validate_image_type "" with
    | .error e => ⟨.error e, none⟩
    | .ok _ => ⟨.ok (String.mk (b64encodeBytes bs)), none⟩
  | .stream nm content pos seekable =>
    let filename := nm.getD ""
    let bytes := content.drop pos
    let finalPos := if seekable then 0 else content.length
    match validate_image_type filename with
    | .error e => ⟨.error e, some finalPos⟩
    | .ok _ => ⟨.ok (String.mk (b64encodeBytes bytes)), some finalPos⟩

/-- The single HTTP request `imgbb_upload` issues: query parameters
`key` and optional `expiration`, form fields `image` and optional
`name`. -/
structure Request where
  key : String
  expiration : Option String
  image : String
  name : Option String
deriving DecidableEq, Repr

/-- Request construction stage of `imgbb_upload` (client.py lines
191-212): validations, normalization, then query/body assembly.  The
second component is the stream position after this stage (the initial
position when validation failed before the stream was touched). -/
def imgbb_build_request (key : Option String) (fs : FileSystem)
    (image : ImageInput) (name : String) (expiration : Int) :
    Except SdkError Request × Option Nat :=
  match validate_api_key key with
  | .error e => (.error e, initialStreamPos image)
  | .ok _ =>
    match (if expiration ≠ 0 then validate_expiration expiration else .ok ()) with
    | .error e => (.error e, initialStreamPos image)
    | .ok _ =>
      let prep := prepare_image_data fs image
      match prep.result with
      | .error e => (.error e, prep.streamPos)
      | .ok image_data =>
        (.ok ⟨key.getD "",
              (if expiration ≠ 0 then some (toString expiration) else none),
              image_data,
              (if name ≠ "" then some name else none)⟩,
         prep.streamPos)

/-- Parsed JSON values, as produced by `response.json()`. -/
inductive Json where
  | str (s : String)
  | num (n : Int)
  | bool (b : Bool)
  | null
  | arr (elems : List Json)
  | obj (fields : List (String × Json))

/-- Lookup in a parsed JSON object (Python `dict` indexing / `in`). -/
def dictLookup (fields : List (String × Json)) (k : String) : Option Json :=
  (fields.find? (fun p => p.1 == k)).map Prod.snd

/-- Single-quote character, used by Python `repr` of strings. -/
def sq : String := String.singleton (Char.ofNat 39)

mutual

/-- Python `str()` of a JSON value as interpolated by an f-string.
Container rendering approximates CPython `repr` (no escaping of
special characters inside strings). -/
def pyStr : Json → String
  | .str s => s
  | .num n => toString n
  | .bool b => if b then "True" else "False"
  | .null => "None"
  | .arr xs => "[" ++ pyReprList xs ++ "]"
  | .obj fs => "\x7b" ++ pyReprFields fs ++ "\x7d"

/-- Python `repr()` of a JSON value (strings gain single quotes). -/
def pyRepr : Json → String
  | .str s => sq ++ s ++ sq
  | .num n => toString n
  | .bool b => if b then "True" else "False"
  | .null => "None"
  | .arr xs => "[" ++ pyReprList xs ++ "]"
  | .obj fs => "\x7b" ++ pyReprFields fs ++ "\x7d"

/-- Comma-separated `repr` of list elements. -/
def pyReprList : List Json → String
  | [] => ""
  | [x] => pyRepr x
  | x :: xs => pyRepr x ++ ", " ++ pyReprList xs

/-- Comma-separated `repr` of dict entries. -/
def pyReprFields : List (String × Json) → String
  | [] => ""
  | [(k, v)] => sq ++ k ++ sq ++ ": " ++ pyRepr v
  | (k, v) :: xs => sq ++ k ++ sq ++ ": " ++ pyRepr v ++ ", " ++ pyReprFields xs

end

/-- Python truthiness of a JSON value (`if not result.get("success")`). -/
def jsonTruthy : Json → Bool
  | .str s => s ≠ ""
  | .num n => n ≠ 0
  | .bool b => b
  | .null => false
  | .arr xs => !xs.isEmpty
  | .obj fs => !fs.isEmpty

/-- Membership of the string `s` among the elements of a JSON array
(Python `s in list` uses element equality; only string elements can
compare equal to a string). -/
def listHasString (xs : List Json) (s : String) : Bool :=
  xs.any (fun j => match j with | .str t => t == s | _ => false)

/-- Suffix appended to `"ImgBB API error: HTTP <code>"` by the non-200
handler (client.py lines 225-231).  `json = none` models
`response.json()` raising, in which case the `except` branch appends
the raw body; a JSON dict with an `error` dict appends the `message` of that dict (default `"Unknown error"`); a dict without `error` appends
nothing; non-dict bodies whose `in`/indexing raises `TypeError` (or an
`error` value without `.get`, raising `AttributeError`) fall into the
same `except` branch and append the raw body. -/
def errorSuffixOfJson (json : Option Json) (text : String) : String :=
  match json with
  | none => ": " ++ text
  | some (Json.obj fields) =>
    match dictLookup fields "error" with
    | none => ""
    | some (Json.obj efields) =>
      match dictLookup efields "message" with
      | some v => ": " ++ pyStr v
      | none => ": " ++ "Unknown error"
    | some _ => ": " ++ text
  | some (Json.arr elems) =>
    if listHasString elems "error" then ": " ++ text else ""
  | some (Json.str s) =>
    if strContains s "error" then ": " ++ text else ""
  | some _ => ": " ++ text

/-- Handler for a 200 response (client.py lines 240-250).  `none` and
non-dict bodies model `response.json()` / `result.get` raising, which
the final generic handler wraps; the exception text there is
environment-specific, so a fixed descriptive message stands in (no
claim depends on it).  A falsy or absent `success` raises
`ImgBBAPIError` built from `result.get("error", dict()).get("message",
"Unknown error")`. -/
def interpret200 (sc : Nat) (text : String) (json : Option Json) :
    Except SdkError Json :=
  match json with
  | none => .error (.api "Unexpected error during upload: invalid JSON body" 0 "")
  | some (Json.obj fields) =>
    let failMsg : Except SdkError Json :=
      match dictLookup fields "error" with
      | none => .error (.api ("Upload failed: " ++ "Unknown error") sc text)
      | some (Json.obj efields) =>
        match dictLookup efields "message" with
        | some v => .error (.api ("Upload failed: " ++ pyStr v) sc text)
        | none => .error (.api ("Upload failed: " ++ "Unknown error") sc text)
      | some _ =>
        .error (.api "Unexpected error during upload: error field has no get" 0 "")
    match dictLookup fields "success" with
    | some v => if jsonTruthy v then .ok (Json.obj fields) else failMsg
    | none => failMsg
  | some _ =>
    .error (.api "Unexpected error during upload: response body is not an object" 0 "")

/-- Outcome of one call to the mocked transport (`requests.post`): a
response with status code, body text and parsed JSON (`none` when the
body is not parseable JSON), a `requests.exceptions.Timeout`, or
another `requests.exceptions.RequestException`. -/
inductive TransportResult where
  | response (statusCode : Nat) (text : String) (json : Option Json)
  | timeout
  | requestError (msg : String)

/-- Result of one `imgbb_upload` call together with the final read
position of the stream argument (`none` for non-stream inputs). -/
structure UploadOutcome where
  result : Except SdkError Json
  finalStreamPos : Option Nat

/-- Python `imgbb_upload` (client.py lines 142-261) over an explicit
filesystem and transport: request construction, one POST, then response
interpretation; timeouts map to `ImgBBTimeoutError`, other transport
failures to `ImgBBAPIError` with a `"Network error: "` message. -/
def imgbb_upload (key : Option String) (fs : FileSystem) (image : ImageInput)
    (name : String) (expiration : Int) (transport : Request → TransportResult) :
    UploadOutcome :=
  match imgbb_build_request key fs image name expiration with
  | (.error e, pos) => ⟨.error e, pos⟩
  | (.ok req, pos) =>
    match transport req with
    | .timeout =>
      ⟨.error (.timeoutErr
          ("Upload timed out after " ++ toString UPLOAD_TIMEOUT ++ " seconds")), pos⟩
    | .requestError m => ⟨.error (.api ("Network error: " ++ m) 0 ""), pos⟩
    | .response sc text json =>
      if sc ≠ 200 then
        ⟨.error (.api
            ("ImgBB API error: HTTP " ++ toString sc ++ errorSuffixOfJson json text)
            sc text), pos⟩
      else
        ⟨interpret200 sc text json, pos⟩

/-- Test for an `Except` success, used to phrase validation outcomes. -/
def exceptOk {ε α : Type} (e : Except ε α) : Bool :=
  match e with
  | .ok _ => true
  | .error _ => false

/-- Do the API-key and expiration validations (the stages before the
image is touched) both pass? -/
def preValidationPasses (key : Option String) (expiration : Int) : Bool :=
  exceptOk (validate_api_key key) &&
    (if expiration = 0 then true else exceptOk (validate_expiration expiration))

/-- The API error message the body carries, in the sense of the spec: a
JSON object whose `error` field is an object with a string `message`. -/
def jsonErrorMessage (json : Option Json) : Option String :=
  match json with
  | some (Json.obj fields) =>
    match dictLookup fields "error" with
    | some (Json.obj efields) =>
      match dictLookup efields "message" with
      | some (Json.str m) => some m
      | _ => none
    | _ => none
  | _ => none

/-- Original filename carried by the input, in the sense of the spec
sentence behind claim C1: the path for file-path input, the `name`
attribute for a named stream, nothing otherwise. -/
def originalFilename : ImageInput → String
  | .str s => if is_url s then "" else s
  | .bytes _ => ""
  | .stream nm _ _ _ => nm.getD ""

/-- Name form-field behavior asserted by the spec (claim C1): the
explicit name when non-empty, else the original filename when present,
else omitted.  Stated from the spec wording, to be compared with the
code. -/
def specNameField (explicitName : String) (image : ImageInput) : Option String :=
  if explicitName ≠ "" then some explicitName
  else if originalFilename image ≠ "" then some (originalFilename image)
  else none

/-- Empty filesystem fixture. -/
def fsEmpty : FileSystem := fun _ => none

/-- Fixture: a 3-byte `photo.png`. -/
def fsPhoto : FileSystem :=
  fun p => if p = "photo.png" then some ⟨true, 3, [1, 2, 3]⟩ else none

/-- Fixture: a `big.png` one byte over the 32 MiB limit. -/
def fsBig : FileSystem :=
  fun p => if p = "big.png" then some ⟨true, 33554433, []⟩ else none

theorem charsStartWith_nil (l : List Char) : charsStartWith l [] = true := by
  cases l <;> rfl

theorem charsStartWith_refl : ∀ l : List Char, charsStartWith l l = true
  | [] => rfl
  | c :: t => by simp [charsStartWith, charsStartWith_refl t]

theorem charsStartWith_extend : ∀ (l n r : List Char),
    charsStartWith l n = true → charsStartWith (l ++ r) n = true
  | l, [], r, _ => charsStartWith_nil (l ++ r)
  | [], _ :: _, _, h => by simp [charsStartWith] at h
  | c :: t, nh :: nt, r, h => by
    simp [charsStartWith] at h ⊢
    exact ⟨h.1, charsStartWith_extend t nt r h.2⟩

theorem charsContain_of_start (hay needle : List Char)
    (h : charsStartWith hay needle = true) : charsContain hay needle = true := by
  cases hay <;> simp [charsContain, h]

theorem charsContain_cons (c : Char) (hay needle : List Char)
    (h : charsContain hay needle = true) : charsContain (c :: hay) needle = true := by
  simp [charsContain, h]

theorem charsContain_append : ∀ (a hay needle : List Char),
    charsContain hay needle = true → charsContain (a ++ hay) needle = true
  | [], _, _, h => h
  | c :: t, hay, needle, h =>
    charsContain_cons c (t ++ hay) needle (charsContain_append t hay needle h)

/-- A middle factor of a three-part concatenation is contained. -/
theorem strContains_piece (x y z : String) : strContains (x ++ y ++ z) y = true := by
  unfold strContains
  simp only [String.data_append, List.append_assoc]
  exact charsContain_append _ _ _
    (charsContain_of_start _ _
      (charsStartWith_extend _ _ _ (charsStartWith_refl _)))

/-- The second factor of a five-part concatenation is contained. -/
theorem strContains_second (a b c d e : String) :
    strContains (a ++ b ++ c ++ d ++ e) b = true := by
  unfold strContains
  simp only [String.data_append, List.append_assoc]
  exact charsContain_append _ _ _
    (charsContain_of_start _ _
      (charsStartWith_extend _ _ _ (charsStartWith_refl _)))

/-- A final factor of a concatenation is contained. -/
theorem strContains_end (x y : String) : strContains (x ++ y) y = true := by
  unfold strContains
  simp only [String.data_append]
  exact charsContain_append _ _ _
    (charsContain_of_start _ _ (charsStartWith_refl _))

theorem b64Val_encChar_fin : ∀ n : Fin 64, b64Val (b64Char n.val) = n.val := by
  decide

theorem b64Val_encChar (n : Nat) (h : n < 64) : b64Val (b64Char n) = n :=
  b64Val_encChar_fin ⟨n, h⟩

theorem b64Char_ne_pad_fin : ∀ n : Fin 64, b64Char n.val ≠ '=' := by
  decide

theorem b64Char_ne_pad (n : Nat) (h : n < 64) : b64Char n ≠ '=' :=
  b64Char_ne_pad_fin ⟨n, h⟩

/-- Decoding is a left inverse of encoding on byte lists. -/
theorem b64_roundtrip : ∀ bs : List Nat, (∀ b ∈ bs, b < 256) →
    b64decodeChars (b64encodeBytes bs) = bs
  | [], _ => rfl
  | [b0], h => by
    have hb0 : b0 < 256 := h b0 (by simp)
    simp only [b64encodeBytes, b64decodeChars, if_true]
    rw [b64Val_encChar _ (by omega), b64Val_encChar _ (by omega)]
    simp only [List.cons.injEq, and_true]
    omega
  | [b0, b1], h => by
    have hb0 : b0 < 256 := h b0 (by simp)
    have hb1 : b1 < 256 := h b1 (by simp)
    simp only [b64encodeBytes, b64decodeChars, if_true]
    rw [b64Val_encChar _ (by omega), b64Val_encChar _ (by omega),
      b64Val_encChar _ (by omega), if_neg (b64Char_ne_pad _ (by omega))]
    simp only [List.cons.injEq, and_true]
    omega
  | b0 :: b1 :: b2 :: rest, h => by
    have hb0 : b0 < 256 := h b0 (by simp)
    have hb1 : b1 < 256 := h b1 (by simp)
    have hb2 : b2 < 256 := h b2 (by simp)
    have ih := b64_roundtrip rest (fun b hb => h b (by simp [hb]))
    simp only [b64encodeBytes, b64decodeChars]
    rw [if_neg (b64Char_ne_pad _ (by omega)), if_neg (b64Char_ne_pad _ (by omega)),
      b64Val_encChar _ (by omega), b64Val_encChar _ (by omega),
      b64Val_encChar _ (by omega), b64Val_encChar _ (by omega)]
    simp only [List.cons.injEq, ih, and_true]
    omega

theorem validate_api_key_error_shape (key : Option String) (e : SdkError)
    (h : validate_api_key key = .error e) : ∃ m, e = SdkError.validation m := by
  cases key with
  | none =>
    simp only [validate_api_key, Except.error.injEq] at h
    exact ⟨_, h.symm⟩
  | some k =>
    simp only [validate_api_key] at h
    by_cases hc : k = "" ∨ pyStrip k = ""
    · rw [if_pos hc] at h
      simp only [Except.error.injEq] at h
      exact ⟨_, h.symm⟩
    · rw [if_neg hc] at h
      exact absurd h (by simp)

theorem build_of_key_error (key : Option String) (fs : FileSystem)
    (image : ImageInput) (name : String) (expiration : Int) (e : SdkError)
    (h : validate_api_key key = .error e) :
    imgbb_build_request key fs image name expiration = (.error e, initialStreamPos image) := by
  unfold imgbb_build_request
  rw [h]

theorem upload_of_build_error (key : Option String) (fs : FileSystem)
    (image : ImageInput) (name : String) (expiration : Int) (e : SdkError)
    (pos : Option Nat) (transport : Request → TransportResult)
    (h : imgbb_build_request key fs image name expiration = (.error e, pos)) :
    imgbb_upload key fs image name expiration transport = ⟨.error e, pos⟩ := by
  unfold imgbb_upload
  rw [h]

theorem upload_finalStreamPos (key : Option String) (fs : FileSystem)
    (image : ImageInput) (name : String) (expiration : Int)
    (transport : Request → TransportResult) :
    (imgbb_upload key fs image name expiration transport).finalStreamPos
      = (imgbb_build_request key fs image name expiration).2 := by
  unfold imgbb_upload
  rcases h : imgbb_build_request key fs image name expiration with ⟨r, p⟩
  cases r with
  | error e => rfl
  | ok req =>
    cases ht : transport req with
    | timeout => simp only [ht]
    | requestError m => simp only [ht]
    | response sc text json =>
      simp only [ht]
      split <;> rfl

theorem prepare_stream_streamPos (fs : FileSystem) (nm : Option String)
    (content : List Nat) (pos : Nat) (seekable : Bool) :
    (prepare_image_data fs (.stream nm content pos seekable)).streamPos
      = some (if seekable then 0 else content.length) := by
  unfold prepare_image_data
  cases h : validate_image_type (nm.getD "") <;> simp [h]

theorem build_request_ok (key : Option String) (fs : FileSystem)
    (image : ImageInput) (name : String) (expiration : Int)
    (req : Request) (pos : Option Nat)
    (h : imgbb_build_request key fs image name expiration = (.ok req, pos)) :
    req.expiration = (if expiration ≠ 0 then some (toString expiration) else none)
    ∧ req.name = (if name ≠ "" then some name else none) := by
  unfold imgbb_build_request at h
  cases hk : validate_api_key key with
  | error e => rw [hk] at h; exact absurd h (by simp)
  | ok _ =>
    rw [hk] at h
    cases hx : (if expiration ≠ 0 then validate_expiration expiration else .ok ()) with
    | error e => rw [hx] at h; exact absurd h (by simp)
    | ok _ =>
      rw [hx] at h
      cases hp : (prepare_image_data fs image).result with
      | error e => simp only [hp] at h; exact absurd h (by simp)
      | ok image_data =>
        simp only [hp, Prod.mk.injEq, Except.ok.injEq] at h
        rw [← h.1]
        exact ⟨rfl, rfl⟩

theorem validate_image_type_ok_of_mem (filename : String)
    (h : get_file_extension filename ∈ SUPPORTED_EXTENSIONS) :
    validate_image_type filename = .ok () := by
  unfold validate_image_type
  by_cases hf : filename ≠ ""
  · rw [if_pos hf, if_neg (by simp [h])]
  · rw [if_neg hf]

theorem validate_image_type_error_of (filename : String)
    (hne : get_file_extension filename ≠ "")
    (hnm : get_file_extension filename ∉ SUPPORTED_EXTENSIONS) :
    validate_image_type filename
      = .error (.validation
          ("Invalid image type. Supported formats: JPEG, PNG, GIF, BMP, WEBP. Got: "
            ++ get_file_extension filename)) := by
  have hf : filename ≠ "" := by
    intro heq
    exact hne (by rw [heq]; rfl)
  unfold validate_image_type
  rw [if_pos hf, if_pos ⟨hne, hnm⟩]

/-- The first factor of a concatenation is contained. -/
theorem strContains_start (y z : String) : strContains (y ++ z) y = true := by
  unfold strContains
  simp only [String.data_append]
  exact charsContain_of_start _ _
    (charsStartWith_extend _ _ _ (charsStartWith_refl _))

/-- C9: for raw-bytes input of size N, the normalization stage produces
the base64 encoding of the payload, and decoding that string returns
exactly the original bytes, so the decoded length equals N. -/
theorem c9_base64_roundtrip (fs : FileSystem) (bs : List Nat)
    (h : ∀ b ∈ bs, b < 256) :
    (prepare_image_data fs (.bytes bs)).result = .ok (String.mk (b64encodeBytes bs))
    ∧ b64decodeChars (String.mk (b64encodeBytes bs)).data = bs
    ∧ (b64decodeChars (String.mk (b64encodeBytes bs)).data).length = bs.length := by
  have hr : b64decodeChars (b64encodeBytes bs) = bs := b64_roundtrip bs h
  have hd : (String.mk (b64encodeBytes bs)).data = b64encodeBytes bs := rfl
  exact ⟨rfl, by rw [hd, hr], by rw [hd, hr]⟩

theorem c9_base64_roundtrip_witness :
    (prepare_image_data fsEmpty (.bytes [137, 80, 78, 71])).result
        = .ok (String.mk (b64encodeBytes [137, 80, 78, 71]))
    ∧ b64decodeChars (String.mk (b64encodeBytes [137, 80, 78, 71])).data
        = [137, 80, 78, 71]
    ∧ (b64decodeChars (String.mk (b64encodeBytes [137, 80, 78, 71])).data).length = 4 :=
  c9_base64_roundtrip fsEmpty [137, 80, 78, 71] (by decide)

/-- C8: when the transport raises a timeout (and the request stage
succeeded, so the POST was attempted), the operation fails with the
timeout error kind — distinct from the API error kind — whose message
contains "timed out" and names the 30-second configured duration. -/
theorem c8_timeout (key : Option String) (fs : FileSystem) (image : ImageInput)
    (name : String) (expiration : Int) (req : Request) (pos : Option Nat)
    (hb : imgbb_build_request key fs image name expiration = (.ok req, pos)) :
    (imgbb_upload key fs image name expiration (fun _ => .timeout)).result
      = .error (.timeoutErr "Upload timed out after 30 seconds")
    ∧ strContains "Upload timed out after 30 seconds" "timed out" = true
    ∧ strContains "Upload timed out after 30 seconds" (toString UPLOAD_TIMEOUT) = true
    ∧ ∀ m sc t, SdkError.timeoutErr "Upload timed out after 30 seconds"
        ≠ SdkError.api m sc t := by
  refine ⟨?_, by decide, by decide, fun m sc t heq => SdkError.noConfusion heq⟩
  unfold imgbb_upload
  rw [hb]
  rfl

theorem c8_timeout_witness :
    (imgbb_upload (some "k") fsEmpty (.bytes [1]) "" 0 (fun _ => .timeout)).result
      = .error (.timeoutErr "Upload timed out after 30 seconds") :=
  (c8_timeout (some "k") fsEmpty (.bytes [1]) "" 0 ⟨"k", none, "AQ==", none⟩ none rfl).1

/-- C7: an absent (`None`), empty, or whitespace-only API key makes the
operation fail with the validation error mentioning "API key is
required" — for every transport, hence before any network call. -/
theorem c7_api_key (key : Option String)
    (h : key = none ∨ ∃ k, key = some k ∧ pyStrip k = "") :
    (∀ fs image name expiration transport,
        (imgbb_upload key fs image name expiration transport).result
          = .error (.validation "ImgBB API key is required and must be a non-empty string"))
    ∧ strContains "ImgBB API key is required and must be a non-empty string"
        "API key is required" = true := by
  refine ⟨?_, by decide⟩
  intro fs image name expiration transport
  have hv : validate_api_key key
      = .error (.validation "ImgBB API key is required and must be a non-empty string") := by
    rcases h with rfl | ⟨k, rfl, hk⟩
    · rfl
    · simp only [validate_api_key]
      rw [if_pos (Or.inr hk)]
  rw [upload_of_build_error key fs image name expiration _ _ transport
      (build_of_key_error key fs image name expiration _ hv)]

theorem c7_api_key_witness :
    (imgbb_upload (some "   ") fsEmpty (.bytes [1]) "" 0 (fun _ => .timeout)).result
      = .error (.validation "ImgBB API key is required and must be a non-empty string") :=
  (c7_api_key (some "   ") (Or.inr ⟨"   ", rfl, by decide⟩)).1
    fsEmpty (.bytes [1]) "" 0 (fun _ => .timeout)

/-- C10: the extension is lowercased before the comparison, so any
filename whose lowercased suffix is recognized — including uppercase or
mixed-case variants such as ".JPG" — passes the image-type check. -/
theorem c10_case_insensitive (filename : String)
    (h : strToLower (pathSuffix filename) ∈ SUPPORTED_EXTENSIONS) :
    get_file_extension filename = strToLower (pathSuffix filename)
    ∧ validate_image_type filename = .ok () :=
  ⟨rfl, validate_image_type_ok_of_mem filename h⟩

theorem c10_case_insensitive_witness :
    get_file_extension "photo.JPG" = strToLower (pathSuffix "photo.JPG")
    ∧ validate_image_type "photo.JPG" = .ok () :=
  c10_case_insensitive "photo.JPG" (by decide)

theorem build_of_prepare_error (key : Option String) (fs : FileSystem)
    (image : ImageInput) (name : String) (expiration : Int) (e : SdkError)
    (hk : validate_api_key key = .ok ())
    (hx : (if expiration ≠ 0 then validate_expiration expiration else .ok ()) = .ok ())
    (hp : (prepare_image_data fs image).result = .error e) :
    imgbb_build_request key fs image name expiration
      = (.error e, (prepare_image_data fs image).streamPos) := by
  simp only [imgbb_build_request, hk, hx, hp]

/-- C6: a filename whose (lowercased) extension is recognized passes the
image-type check; one with any other non-empty extension fails it with a
message mentioning "Invalid image type", and an upload whose input
carries that filename (here: a named stream) fails the same way. -/
theorem c6_extension_check (filename : String) :
    (get_file_extension filename ∈ SUPPORTED_EXTENSIONS →
      validate_image_type filename = .ok ())
    ∧ (get_file_extension filename ≠ "" →
       get_file_extension filename ∉ SUPPORTED_EXTENSIONS →
        validate_image_type filename
          = .error (.validation
              ("Invalid image type. Supported formats: JPEG, PNG, GIF, BMP, WEBP. Got: "
                ++ get_file_extension filename))
        ∧ strContains
            ("Invalid image type. Supported formats: JPEG, PNG, GIF, BMP, WEBP. Got: "
              ++ get_file_extension filename) "Invalid image type" = true
        ∧ ∀ (key : Option String) (fs : FileSystem) (content : List Nat) (pos : Nat)
            (seekable : Bool) (transport : Request → TransportResult),
            validate_api_key key = .ok () →
            (imgbb_upload key fs (.stream (some filename) content pos seekable) "" 0
                transport).result
              = .error (.validation
                  ("Invalid image type. Supported formats: JPEG, PNG, GIF, BMP, WEBP. Got: "
                    ++ get_file_extension filename))) := by
  refine ⟨validate_image_type_ok_of_mem filename, fun hne hnm => ?_⟩
  have herr := validate_image_type_error_of filename hne hnm
  refine ⟨herr, ?_, ?_⟩
  · have hsplit : ("Invalid image type. Supported formats: JPEG, PNG, GIF, BMP, WEBP. Got: "
        : String)
        = "Invalid image type" ++ ". Supported formats: JPEG, PNG, GIF, BMP, WEBP. Got: " :=
      rfl
    rw [hsplit, String.append_assoc]
    exact strContains_start _ _
  · intro key fs content pos seekable transport hk
    have hprep : (prepare_image_data fs
        (.stream (some filename) content pos seekable)).result
        = .error (.validation
            ("Invalid image type. Supported formats: JPEG, PNG, GIF, BMP, WEBP. Got: "
              ++ get_file_extension filename)) := by
      simp only [prepare_image_data, Option.getD_some, herr]
    rw [upload_of_build_error key fs _ "" 0 _ _ transport
        (build_of_prepare_error key fs _ "" 0 _ hk (by rfl) hprep)]

theorem c6_extension_check_witness :
    validate_image_type "a.txt"
      = .error (.validation
          ("Invalid image type. Supported formats: JPEG, PNG, GIF, BMP, WEBP. Got: "
            ++ get_file_extension "a.txt"))
    ∧ (imgbb_upload (some "k") fsEmpty (.stream (some "a.txt") [1] 0 true) "" 0
          (fun _ => .timeout)).result
      = .error (.validation
          ("Invalid image type. Supported formats: JPEG, PNG, GIF, BMP, WEBP. Got: "
            ++ get_file_extension "a.txt")) :=
  ⟨((c6_extension_check "a.txt").2 (by decide) (by decide)).1,
   ((c6_extension_check "a.txt").2 (by decide) (by decide)).2.2
     (some "k") fsEmpty [1] 0 true (fun _ => .timeout) rfl⟩

theorem build_of_exp_error (key : Option String) (fs : FileSystem)
    (image : ImageInput) (name : String) (expiration : Int) (e : SdkError)
    (hk : validate_api_key key = .ok ())
    (hne : expiration ≠ 0)
    (hx : validate_expiration expiration = .error e) :
    imgbb_build_request key fs image name expiration
      = (.error e, initialStreamPos image) := by
  simp only [imgbb_build_request, hk]
  rw [if_pos hne, hx]

/-- C4: every expiration inside [60, 15552000] is forwarded unchanged as
the `expiration` query parameter; 0 omits the parameter; any other value
outside the range yields a validation error whose result holds for every
transport, i.e. before any network call. -/
theorem c4_expiration (key : Option String) (fs : FileSystem) (image : ImageInput)
    (name : String) (expiration : Int) :
    (∀ req pos, 60 ≤ expiration → expiration ≤ 15552000 →
        imgbb_build_request key fs image name expiration = (.ok req, pos) →
        req.expiration = some (toString expiration))
    ∧ (∀ req pos, expiration = 0 →
        imgbb_build_request key fs image name expiration = (.ok req, pos) →
        req.expiration = none)
    ∧ (expiration ≠ 0 → (expiration < 60 ∨ 15552000 < expiration) →
        ∃ m, (imgbb_build_request key fs image name expiration).1
              = .error (.validation m)
          ∧ ∀ transport,
              (imgbb_upload key fs image name expiration transport).result
                = .error (.validation m)) := by
  refine ⟨?_, ?_, ?_⟩
  · intro req pos h60 h15 hb
    rw [(build_request_ok key fs image name expiration req pos hb).1,
      if_pos (show expiration ≠ 0 by omega)]
  · intro req pos h0 hb
    rw [(build_request_ok key fs image name expiration req pos hb).1,
      if_neg (by simp [h0])]
  · intro hne hout
    cases hv : validate_api_key key with
    | error e =>
      obtain ⟨m, rfl⟩ := validate_api_key_error_shape key e hv
      refine ⟨m, ?_, fun transport => ?_⟩
      · rw [build_of_key_error key fs image name expiration _ hv]
      · rw [upload_of_build_error key fs image name expiration _ _ transport
            (build_of_key_error key fs image name expiration _ hv)]
    | ok u =>
      cases u
      have hx : validate_expiration expiration
          = .error (.validation
              "Expiration must be a number between 60 and 15552000 seconds") := by
        unfold validate_expiration
        rw [if_pos (by simp only [MIN_EXPIRATION, MAX_EXPIRATION]; omega)]
      refine ⟨"Expiration must be a number between 60 and 15552000 seconds",
        ?_, fun transport => ?_⟩
      · rw [build_of_exp_error key fs image name expiration _ hv hne hx]
      · rw [upload_of_build_error key fs image name expiration _ _ transport
            (build_of_exp_error key fs image name expiration _ hv hne hx)]

theorem c4_expiration_witness :
    (⟨"k", some "600", "AQ==", none⟩ : Request).expiration = some (toString (600 : Int))
    ∧ (∃ m, (imgbb_build_request (some "k") fsEmpty (.bytes [1]) "" 59).1
          = .error (.validation m)
        ∧ ∀ transport,
            (imgbb_upload (some "k") fsEmpty (.bytes [1]) "" 59 transport).result
              = .error (.validation m))
    ∧ (⟨"k", none, "AQ==", none⟩ : Request).expiration = none :=
  ⟨(c4_expiration (some "k") fsEmpty (.bytes [1]) "" 600).1
      ⟨"k", some "600", "AQ==", none⟩ none (by omega) (by omega) rfl,
   (c4_expiration (some "k") fsEmpty (.bytes [1]) "" 59).2.2
      (by omega) (Or.inl (by omega)),
   (c4_expiration (some "k") fsEmpty (.bytes [1]) "" 0).2.1
      ⟨"k", none, "AQ==", none⟩ none rfl rfl⟩

/-- C5: a file-path input whose stat size exceeds 32 MiB makes the
operation fail with a validation error whose message mentions the size,
for every transport — so no request is issued. -/
theorem c5_oversize_file (key : Option String) (fs : FileSystem) (path : String)
    (entry : FileEntry) (name : String) (expiration : Int)
    (hk : validate_api_key key = .ok ())
    (hx : (if expiration ≠ 0 then validate_expiration expiration else .ok ()) = .ok ())
    (hurl : is_url path = false)
    (hfs : fs path = some entry) (hfile : entry.isFile = true)
    (hsize : entry.size > MAX_FILE_SIZE) :
    (imgbb_build_request key fs (.str path) name expiration).1
      = .error (.validation
          ("File size (" ++ toString entry.size
            ++ " bytes) exceeds maximum allowed size ("
            ++ toString MAX_FILE_SIZE ++ " bytes)"))
    ∧ strContains
        ("File size (" ++ toString entry.size
          ++ " bytes) exceeds maximum allowed size ("
          ++ toString MAX_FILE_SIZE ++ " bytes)")
        (toString entry.size) = true
    ∧ ∀ transport,
        (imgbb_upload key fs (.str path) name expiration transport).result
          = .error (.validation
              ("File size (" ++ toString entry.size
                ++ " bytes) exceeds maximum allowed size ("
                ++ toString MAX_FILE_SIZE ++ " bytes)")) := by
  have hread : read_image_file fs path
      = .error (.validation
          ("File size (" ++ toString entry.size
            ++ " bytes) exceeds maximum allowed size ("
            ++ toString MAX_FILE_SIZE ++ " bytes)")) := by
    unfold read_image_file
    simp only [hfs]
    rw [if_neg (by simp [hfile]), if_pos hsize]
  have hprep : (prepare_image_data fs (.str path)).result
      = .error (.validation
          ("File size (" ++ toString entry.size
            ++ " bytes) exceeds maximum allowed size ("
            ++ toString MAX_FILE_SIZE ++ " bytes)")) := by
    simp only [prepare_image_data, hurl, Bool.false_eq_true, if_false, hread]
  refine ⟨?_, strContains_second _ _ _ _ _, fun transport => ?_⟩
  · rw [build_of_prepare_error key fs _ name expiration _ hk hx hprep]
  · rw [upload_of_build_error key fs _ name expiration _ _ transport
        (build_of_prepare_error key fs _ name expiration _ hk hx hprep)]

theorem c5_oversize_file_witness :
    (imgbb_build_request (some "k") fsBig (.str "big.png") "" 0).1
      = .error (.validation
          ("File size (" ++ toString (33554433 : Nat)
            ++ " bytes) exceeds maximum allowed size ("
            ++ toString MAX_FILE_SIZE ++ " bytes)")) :=
  (c5_oversize_file (some "k") fsBig "big.png" ⟨true, 33554433, []⟩ "" 0
    rfl rfl (by decide) rfl rfl (by decide)).1

/-- C1 counterexample: the claimed filename fallback does not exist in
the code.  Uploading the file `photo.png` with no explicit name builds a
request whose `name` field is omitted, where the claim demands
`some "photo.png"`. -/
theorem c1_counterexample :
    ¬ (∀ (key : Option String) (fs : FileSystem) (image : ImageInput) (name : String)
          (expiration : Int) (req : Request) (pos : Option Nat),
        imgbb_build_request key fs image name expiration = (.ok req, pos) →
        req.name = specNameField name image) := by
  intro hclaim
  have h := hclaim (some "k") fsPhoto (.str "photo.png") "" 0
    ⟨"k", none, "AQID", none⟩ none rfl
  exact absurd h (by decide)

/-- C1 (amended): the `name` form field is included exactly when the
explicit name of the caller is non-empty, and then equals it; there is no
fallback to the original filename. -/
theorem c1_name_field (key : Option String) (fs : FileSystem) (image : ImageInput)
    (name : String) (expiration : Int) (req : Request) (pos : Option Nat)
    (h : imgbb_build_request key fs image name expiration = (.ok req, pos)) :
    req.name = (if name ≠ "" then some name else none) :=
  (build_request_ok key fs image name expiration req pos h).2

theorem c1_name_field_witness :
    (⟨"k", none, "AQID", some "myname"⟩ : Request).name
      = (if ("myname" : String) ≠ "" then some "myname" else none) :=
  c1_name_field (some "k") fsPhoto (.str "photo.png") "myname" 0
    ⟨"k", none, "AQID", some "myname"⟩ none rfl

/-- C3 counterexample: a seekable stream entering at position 1 leaves
the call at position 0 — the code resets to the beginning, not to the
call-time position. -/
theorem c3_counterexample :
    ¬ (∀ (key : Option String) (fs : FileSystem) (nm : Option String)
          (content : List Nat) (pos : Nat) (name : String) (expiration : Int)
          (transport : Request → TransportResult),
        (imgbb_upload key fs (.stream nm content pos true) name expiration
            transport).finalStreamPos = some pos) := by
  intro hclaim
  have h := hclaim (some "k") fsEmpty none [1, 2] 1 "" 0
    (fun _ => .response 200 "" (some (Json.obj [("success", Json.bool true)])))
  exact absurd h (by decide)

theorem build_snd_of_prevalid (key : Option String) (fs : FileSystem)
    (image : ImageInput) (name : String) (expiration : Int)
    (hk : validate_api_key key = .ok ())
    (hx : (if expiration ≠ 0 then validate_expiration expiration else .ok ()) = .ok ()) :
    (imgbb_build_request key fs image name expiration).2
      = (prepare_image_data fs image).streamPos := by
  simp only [imgbb_build_request, hk, hx]
  cases hp : (prepare_image_data fs image).result <;> simp [hp]

/-- C3 (amended): for a seekable stream the exit position is 0 (the
beginning) whenever the key/expiration validations pass — the stream is
consumed and reset before any later failure can occur — and it equals
the call-time position only when those validations fail before the
stream is read. -/
theorem c3_stream_position (key : Option String) (fs : FileSystem)
    (nm : Option String) (content : List Nat) (pos : Nat) (name : String)
    (expiration : Int) (transport : Request → TransportResult) :
    (imgbb_upload key fs (.stream nm content pos true) name expiration
        transport).finalStreamPos
      = some (if preValidationPasses key expiration then 0 else pos) := by
  rw [upload_finalStreamPos]
  cases hk : validate_api_key key with
  | error e =>
    rw [build_of_key_error key fs _ name expiration _ hk]
    have hpre : preValidationPasses key expiration = false := by
      simp [preValidationPasses, exceptOk, hk]
    rw [hpre]
    rfl
  | ok u =>
    cases u
    by_cases h0 : expiration = 0
    · have hx : (if expiration ≠ 0 then validate_expiration expiration else .ok ())
          = .ok () := by rw [if_neg (by simp [h0])]
      rw [build_snd_of_prevalid key fs _ name expiration hk hx,
        prepare_stream_streamPos]
      have hpre : preValidationPasses key expiration = true := by
        simp [preValidationPasses, exceptOk, hk, h0]
      rw [hpre]
      rfl
    · cases hval : validate_expiration expiration with
      | error e =>
        rw [build_of_exp_error key fs _ name expiration _ hk h0 hval]
        have hpre : preValidationPasses key expiration = false := by
          simp [preValidationPasses, exceptOk, hk, h0, hval]
        rw [hpre]
        rfl
      | ok u2 =>
        cases u2
        have hx : (if expiration ≠ 0 then validate_expiration expiration else .ok ())
            = .ok () := by rw [if_pos h0, hval]
        rw [build_snd_of_prevalid key fs _ name expiration hk hx,
          prepare_stream_streamPos]
        have hpre : preValidationPasses key expiration = true := by
          simp [preValidationPasses, exceptOk, hk, h0, hval]
        rw [hpre]
        rfl

theorem errorSuffix_of_message (json : Option Json) (text : String) (m : String)
    (h : jsonErrorMessage json = some m) :
    errorSuffixOfJson json text = ": " ++ m := by
  cases json with
  | none => exact absurd h (by simp [jsonErrorMessage])
  | some j =>
    cases j with
    | str s => exact absurd h (by simp [jsonErrorMessage])
    | num n => exact absurd h (by simp [jsonErrorMessage])
    | bool b => exact absurd h (by simp [jsonErrorMessage])
    | null => exact absurd h (by simp [jsonErrorMessage])
    | arr xs => exact absurd h (by simp [jsonErrorMessage])
    | obj fields =>
      simp only [jsonErrorMessage] at h
      cases he : dictLookup fields "error" with
      | none => rw [he] at h; exact absurd h (by simp)
      | some ej =>
        rw [he] at h
        cases ej with
        | str s => exact absurd h (by simp)
        | num n => exact absurd h (by simp)
        | bool b => exact absurd h (by simp)
        | null => exact absurd h (by simp)
        | arr xs => exact absurd h (by simp)
        | obj efields =>
          dsimp only at h
          cases hm2 : dictLookup efields "message" with
          | none => rw [hm2] at h; exact absurd h (by simp)
          | some mv =>
            rw [hm2] at h
            cases mv with
            | str s =>
              simp only [Option.some.injEq] at h
              subst h
              simp only [errorSuffixOfJson, he, hm2, pyStr]
            | num n => exact absurd h (by simp)
            | bool b => exact absurd h (by simp)
            | null => exact absurd h (by simp)
            | arr xs => exact absurd h (by simp)
            | obj fs2 => exact absurd h (by simp)

/-- C2 counterexample: for a non-200 response whose body is parseable
JSON without an error message (here the empty object at status 500) the
raised message carries only the status code — it contains neither an API
message nor the raw response body, contradicting the sentence "otherwise contains the raw response body". -/
theorem c2_counterexample :
    ¬ (∀ (key : Option String) (fs : FileSystem) (image : ImageInput) (name : String)
          (expiration : Int) (req : Request) (pos : Option Nat) (sc : Nat)
          (text : String) (json : Option Json),
        imgbb_build_request key fs image name expiration = (.ok req, pos) →
        sc ≠ 200 →
        ∃ msg,
          (imgbb_upload key fs image name expiration
              (fun _ => .response sc text json)).result = .error (.api msg sc text)
          ∧ (match jsonErrorMessage json with
             | some m => strContains msg m
             | none => strContains msg text) = true) := by
  intro hclaim
  obtain ⟨msg, hm, hc⟩ := hclaim (some "k") fsEmpty (.bytes [1]) "" 0
    ⟨"k", none, "AQ==", none⟩ none 500 "\x7b\x7d" (some (Json.obj []))
    rfl (by decide)
  have heval : (imgbb_upload (some "k") fsEmpty (.bytes [1]) "" 0
      (fun _ => .response 500 "\x7b\x7d" (some (Json.obj [])))).result
      = .error (.api "ImgBB API error: HTTP 500" 500 "\x7b\x7d") := rfl
  rw [heval] at hm
  simp only [Except.error.injEq, SdkError.api.injEq] at hm
  rw [← hm.1] at hc
  exact absurd hc (by decide)

/-- C2 (amended): a non-200 response fails with an API error carrying
the status code; its message contains the status code, contains the
error message of the API when the body parses to an object whose
`error` object holds a string message, contains the raw body when the
body is not parseable JSON, and carries only the status code when the
body parses to a JSON object with no `error` key at all. -/
theorem c2_non200 (key : Option String) (fs : FileSystem) (image : ImageInput)
    (name : String) (expiration : Int) (req : Request) (pos : Option Nat)
    (sc : Nat) (text : String) (json : Option Json)
    (hb : imgbb_build_request key fs image name expiration = (.ok req, pos))
    (hsc : sc ≠ 200) :
    (imgbb_upload key fs image name expiration
        (fun _ => .response sc text json)).result
      = .error (.api
          ("ImgBB API error: HTTP " ++ toString sc ++ errorSuffixOfJson json text)
          sc text)
    ∧ strContains ("ImgBB API error: HTTP " ++ toString sc
        ++ errorSuffixOfJson json text) (toString sc) = true
    ∧ (json = none →
        strContains ("ImgBB API error: HTTP " ++ toString sc
          ++ errorSuffixOfJson json text) text = true)
    ∧ (∀ m, jsonErrorMessage json = some m →
        strContains ("ImgBB API error: HTTP " ++ toString sc
          ++ errorSuffixOfJson json text) m = true)
    ∧ (∀ fields, json = some (Json.obj fields) →
        dictLookup fields "error" = none →
        ("ImgBB API error: HTTP " ++ toString sc ++ errorSuffixOfJson json text)
          = "ImgBB API error: HTTP " ++ toString sc) := by
  refine ⟨?_, strContains_piece _ _ _, ?_, ?_, ?_⟩
  · unfold imgbb_upload
    rw [hb]
    dsimp only
    rw [if_pos hsc]
  · intro hj
    subst hj
    simp only [errorSuffixOfJson]
    rw [← String.append_assoc]
    exact strContains_end _ _
  · intro m hm
    rw [errorSuffix_of_message json text m hm, ← String.append_assoc]
    exact strContains_end _ _
  · intro fields hj he
    subst hj
    simp only [errorSuffixOfJson, he]
    exact String.append_empty _

theorem c2_non200_witness :
    strContains
      ("ImgBB API error: HTTP " ++ toString (403 : Nat)
        ++ errorSuffixOfJson
            (some (Json.obj [("error",
              Json.obj [("message", Json.str "Invalid API key"), ("code", Json.num 100)])]))
            "body")
      "Invalid API key" = true :=
  (c2_non200 (some "k") fsEmpty (.bytes [1]) "" 0 ⟨"k", none, "AQ==", none⟩ none
    403 "body"
    (some (Json.obj [("error",
      Json.obj [("message", Json.str "Invalid API key"), ("code", Json.num 100)])]))
    rfl (by decide)).2.2.2.1 "Invalid API key" rfl

end ImgBB
